import Mathlib

/-
Verification of the memory-mcp memory lifecycle engine.

The Python sources are shallowly embedded: text is a list of Unicode code
points (`List Nat`), similarities and thresholds are rationals, timestamps
are integers, database tables are lists or finite sets of row structures,
and the external collaborators (the uuid5 hash, the embedding model, the
segmentation and arbitration LLM calls, the nearest-neighbour query) are
parameters of the embedded functions, exactly as the spec treats them as
interface-only collaborators.
-/

/-! ### Text model (src/utils.py)

Python `str` values are modelled as lists of code points.  `isSpaceN`
recognises the ASCII whitespace code points that `str.split()` and
`str.strip()` treat as separators; `toLowerN` is ASCII `str.lower()`.
-/

/-- ASCII whitespace, the separator set of Python `str.split()` /
`str.strip()`: space, tab, newline, vertical tab, form feed, carriage
return. -/
def isSpaceN (c : Nat) : Bool :=
  decide (c = 32 ∨ c = 9 ∨ c = 10 ∨ c = 11 ∨ c = 12 ∨ c = 13)

/-- ASCII lowering of one code point (`str.lower()` restricted to ASCII). -/
def toLowerN (c : Nat) : Nat :=
  if 65 ≤ c ∧ c ≤ 90 then c + 32 else c

/-- `str.lower()` over the whole string. -/
def pyLower (l : List Nat) : List Nat := l.map toLowerN

/-- Accumulator worker for `str.split()` (split on whitespace runs,
dropping empty tokens).  `cur` holds the current word reversed. -/
def wordsAux : List Nat → List Nat → List (List Nat)
  | cur, [] => if cur = [] then [] else [cur.reverse]
  | cur, c :: cs =>
    if isSpaceN c then
      if cur = [] then wordsAux [] cs else cur.reverse :: wordsAux [] cs
    else wordsAux (c :: cur) cs

/-- Python `text.split()` with no argument: maximal whitespace-free runs. -/
def pySplit (l : List Nat) : List (List Nat) := wordsAux [] l

/-- Python `text.strip()`: drop whitespace from both ends. -/
def pyStrip (l : List Nat) : List Nat :=
  ((l.dropWhile isSpaceN).reverse.dropWhile isSpaceN).reverse

/-- Python `" ".join(words)`. -/
def joinWords : List (List Nat) → List Nat
  | [] => []
  | [w] => w
  | w :: w2 :: ws => w ++ 32 :: joinWords (w2 :: ws)

/-- The normalisation inside `utils.generate_deterministic_id`:
`" ".join(text.strip().split()).lower()`. -/
def pyNormalize (l : List Nat) : List Nat :=
  pyLower (joinWords (pySplit (pyStrip l)))

/-- Embeds `utils.generate_deterministic_id`: normalise, then apply a
version-5 UUID over a fixed namespace.  `uuid5` is the external hash
(`uuid.uuid5(uuid.NAMESPACE_OID, ·)`), taken as a parameter. -/
def generate_deterministic_id (uuid5 : List Nat → Nat) (text : List Nat) : Nat :=
  uuid5 (pyNormalize text)

/-- Modelled from the spec's words for claim C8 only: "leading/trailing
whitespace stripped, internal whitespace runs collapsed to single spaces,
lowercased". -/
def normalize_spec (l : List Nat) : List Nat :=
  pyLower (joinWords (pySplit (pyStrip l)))

/-- A word emitted by `pySplit`: non-empty and whitespace-free. -/
def GoodWord (w : List Nat) : Prop :=
  w ≠ [] ∧ ∀ c ∈ w, isSpaceN c = false

/-- Code points of a string literal, for readable concrete text values. -/
def codes (s : String) : List Nat := s.data.map Char.toNat

/-! ### Configuration defaults (src/config.py) -/

def DUP_THRESHOLD : ℚ := 0.95

def CONFLICT_THRESHOLD : ℚ := 0.55

def MIN_SECTION_LENGTH : Nat := 100

def STAGING_RETENTION_DAYS : Int := 7

/-! ### Semantic section extraction (src/llm.py, extract_semantic_sections)

The extraction JSON schema (`SEMANTIC_SECTIONS_SCHEMA`, strict, with
`additionalProperties: false`) fixes the keys of every parsed section to
exactly `category_path`, `content`, `tags`, `volatility_class`; both
fallback paths build dicts with the same four keys.  `tags` is elided: no
claim concerns it.  The external `sanitize_ltree_path` rewriting of paths
is abstracted as the `sanitizePath` parameter. -/

structure RawSection where
  category_path : List Nat
  content : List Nat
  volatility_class : List Nat
deriving DecidableEq

/-- The single fallback section `{content=input,
category_path="reference.unknown", tags=[], volatility_class="low"}`
(llm.py lines 127-134 and 148-155). -/
def fallbackSection (text : List Nat) : RawSection :=
  { category_path := codes "reference.unknown"
    content := text
    volatility_class := codes "low" }

/-- llm.py lines 139-141: volatility defaults to "low" when not one of the
four legal values. -/
def normVolatility (v : List Nat) : List Nat :=
  if v = codes "static" ∨ v = codes "high" ∨ v = codes "medium" ∨ v = codes "low"
  then v else codes "low"

/-- Embeds `llm.extract_semantic_sections` (lines 121-155).  `response`
is the parsed LLM reply: `none` models the exception path (call failure or
malformed JSON), `some l` the parsed `sections` list.  On the success path
with a non-empty list the sections are sanitised, volatility-normalised and
then filtered by `len(s.get("content", "").strip()) >= MIN_SECTION_LENGTH`;
both failure paths return the unfiltered fallback section. -/
def extract_semantic_sections (sanitizePath : List Nat → List Nat)
    (minLen : Nat) (text : List Nat)
    (response : Option (List RawSection)) : List RawSection :=
  match response with
  | none => [fallbackSection text]
  | some parsed =>
    if parsed = [] then [fallbackSection text]
    else
      (parsed.map fun s =>
        { s with
          category_path := sanitizePath s.category_path
          volatility_class := normVolatility s.volatility_class }).filter
        fun s => decide (minLen ≤ (pyStrip s.content).length)

/-! ### Per-section evaluation (src/db.py, process_section, lines 227-298) -/

/-- The nearest-active-neighbour row returned by the similarity query
(`SELECT id, content, 1 - (embedding <=> $1::vector) AS similarity ...
LIMIT 1`), scoped to the section's category subtree. -/
structure Neighbour where
  nid : Nat
  ncontent : List Nat
  similarity : ℚ
deriving DecidableEq

/-- The result of `llm.evaluate_conflict`. -/
structure ArbResult where
  resolution : List Nat
  updated_text : List Nat
deriving DecidableEq

/-- The per-section result dict built by `process_section`.  The Python
dicts have two shapes (duplicate vs insertion); absent keys are `none`.
The `metadata` / `verify_after` keys are elided: no claim concerns them. -/
structure SectionOutcome where
  id : Nat
  exists_ : Bool
  duplicate_of : Option Nat
  chunk : Option (List Nat)
  vec : Option (List ℚ)
  cat_path : Option (List Nat)
  supersedes : Option Nat
  resolution : Option (List Nat)
deriving DecidableEq

/-- The similarity value used for branching:
`float(similar_mem["similarity"]) if similar_mem else 0.0`. -/
def simOf (neighbour : Option Neighbour) : ℚ :=
  match neighbour with
  | some n => n.similarity
  | none => 0

/-- Embeds `process_section` (db.py lines 227-298).  External collaborators
are parameters: `uuid5` the hash inside `generate_deterministic_id`,
`embed` the embedding model, `arbitrate` = `evaluate_conflict`,
`existsInDb` the `SELECT 1 FROM memories WHERE id = $1` probe, `neighbour`
the nearest-neighbour query row.  The first component is `none` exactly
when the Python would raise (subscripting the absent neighbour row); the
second component lists the texts sent to `embed`, in order. -/
def process_section (uuid5 : List Nat → Nat) (embed : List Nat → List ℚ)
    (arbitrate : List Nat → List Nat → ArbResult)
    (dup_threshold conflict_threshold : ℚ)
    (existsInDb : Nat → Bool) (neighbour : Option Neighbour)
    (sec : RawSection) : Option SectionOutcome × List (List Nat) :=
  let chunk_content := sec.content
  let chunk_id := generate_deterministic_id uuid5 chunk_content
  if existsInDb chunk_id then
    (some { id := chunk_id, exists_ := true, duplicate_of := some chunk_id,
            chunk := none, vec := none, cat_path := none, supersedes := none,
            resolution := none }, [])
  else
    let vec := embed chunk_content
    let similarity := simOf neighbour
    if dup_threshold < similarity then
      (neighbour.map fun n =>
        { id := chunk_id, exists_ := true, duplicate_of := some n.nid,
          chunk := none, vec := none, cat_path := none, supersedes := none,
          resolution := none }, [chunk_content])
    else if conflict_threshold ≤ similarity ∧ similarity ≤ dup_threshold then
      match neighbour with
      | none => (none, [chunk_content])
      | some n =>
        let res := arbitrate n.ncontent chunk_content
        let final_text := res.updated_text
        let final_vec := embed final_text
        let insert_id := generate_deterministic_id uuid5 final_text
        (some { id := insert_id, exists_ := false, duplicate_of := none,
                chunk := some final_text, vec := some final_vec,
                cat_path := some sec.category_path, supersedes := some n.nid,
                resolution := some res.resolution }, [chunk_content, final_text])
    else
      (some { id := chunk_id, exists_ := false, duplicate_of := none,
              chunk := some chunk_content, vec := some vec,
              cat_path := some sec.category_path, supersedes := none,
              resolution := none }, [chunk_content])

/-! ### Memory rows and edges (src/db.py schema) -/

inductive RelType
  | supersedes
  | relates_to
  | depends_on
  | sequence_next
deriving DecidableEq

/-- An edge row; the primary key is the whole triple, so the edge table is
a finite set of these. -/
structure Edge where
  source_id : Nat
  target_id : Nat
  relation_type : RelType
deriving DecidableEq

/-- A memory row, restricted to the columns the claims touch.
`supersedes_id` is the back-pointer from a superseded (old) record to its
replacement. -/
structure MemoryRow where
  id : Nat
  content : List Nat
  supersedes_id : Option Nat
  created_at : Int
  updated_at : Int
deriving DecidableEq

/-! ### Supersession step of the batch transaction (src/db.py 334-361) -/

/-- db.py lines 337-340: `UPDATE memories SET supersedes_id = $1,
updated_at = $2 WHERE id = $3` pointing the old node at its replacement. -/
def setSupersedes (mems : List MemoryRow) (old_id new_id : Nat) (now : Int) :
    List MemoryRow :=
  mems.map fun m =>
    if m.id = old_id then { m with supersedes_id := some new_id, updated_at := now } else m

/-- db.py lines 342-361: insert-or-ignore `(new, t, r)` for every
`(old, t, r)`; then, over the resulting table, insert-or-ignore
`(s, new, r)` for every `(s, old, r)`; then delete every edge touching
`old`.  Each INSERT..SELECT reads the table state left by the previous
statement. -/
def rewireOut (E : Finset Edge) (old_id new_id : Nat) : Finset Edge :=
  E ∪ (E.filter fun e => e.source_id = old_id).image
      fun e => { e with source_id := new_id }

def rewireIn (E : Finset Edge) (old_id new_id : Nat) : Finset Edge :=
  E ∪ (E.filter fun e => e.target_id = old_id).image
      fun e => { e with target_id := new_id }

def rewireEdges (E : Finset Edge) (old_id new_id : Nat) : Finset Edge :=
  (rewireIn (rewireOut E old_id new_id) old_id new_id).filter
    fun e => ¬e.source_id = old_id ∧ ¬e.target_id = old_id

/-- Node substitution `old ↦ new`. -/
def substNode (old_id new_id x : Nat) : Nat := if x = old_id then new_id else x

/-- The claim's "edge with the new record substituted in its place". -/
def substEdge (old_id new_id : Nat) (e : Edge) : Edge :=
  { e with source_id := substNode old_id new_id e.source_id,
           target_id := substNode old_id new_id e.target_id }

/-! ### Batched persistence loop (src/db.py lines 302-385)

The loop is modelled by the state it threads (`first_id`, `prev_id`) plus
the ordered list of SQL effects it issues.  Batch grouping into
transactions of CHUNK_BATCH_SIZE does not change the sequence of
statements, so it is not represented. -/

inductive PersistOp
  | insertMemory (id : Nat)
  | supersessionRewire (old_id new_id : Nat)
  | relatesToEdges (id : Nat)
  | seqEdge (source_id target_id : Nat)
  | touchLastAccessed (id : Nat)
deriving DecidableEq

structure LoopState where
  first_id : Option Nat
  prev_id : Option Nat
deriving DecidableEq

/-- db.py line 315: `item.get("duplicate_of", item["id"]) if item["exists"]
else item["id"]`. -/
def effective_id (item : SectionOutcome) : Nat :=
  if item.exists_ then item.duplicate_of.getD item.id else item.id

/-- One iteration of the `for item in batch` body (db.py lines 309-385). -/
def persistStep (st : LoopState) (item : SectionOutcome) :
    LoopState × List PersistOp :=
  let eff := effective_id item
  let first := match st.first_id with
    | none => some eff
    | some f => some f
  if item.exists_ = false then
    let seqOps : List PersistOp := match st.prev_id with
      | some p => if p ≠ eff then [PersistOp.seqEdge p eff] else []
      | none => []
    let superOps : List PersistOp := match item.supersedes with
      | some old_id => [PersistOp.supersessionRewire old_id item.id]
      | none => []
    ({ first_id := first, prev_id := some eff },
      [PersistOp.insertMemory item.id] ++ superOps
        ++ [PersistOp.relatesToEdges item.id] ++ seqOps)
  else
    ({ first_id := first, prev_id := st.prev_id },
      [PersistOp.touchLastAccessed eff])

/-- The whole loop over the section results, in order. -/
def persistLoop : LoopState → List SectionOutcome → LoopState × List PersistOp
  | st, [] => (st, [])
  | st, item :: rest =>
    let p1 := persistStep st item
    let p2 := persistLoop p1.fst rest
    (p2.fst, p1.snd ++ p2.snd)

/-! ### Primer refresh decision (src/db.py lines 390-397) -/

/-- `utils.is_profile_path`: `category_path.startswith("profile")`. -/
def is_profile_path (category_path : List Nat) : Bool :=
  category_path.take 7 = codes "profile"

/-- `section.get("exists", False)` on a RAW extracted section.  Raw
sections carry exactly the keys `category_path, content, tags,
volatility_class` (strict extraction schema, and both fallback paths), so
the lookup always returns the default `False`. -/
def rawSectionGetExists (_s : RawSection) : Bool := false

/-- Embeds the `profile_changed` computation exactly as written (db.py
lines 390-394): it ranges over the raw `sections` list, not over the
processed `section_data` outcomes. -/
def profile_changed_code (sections : List RawSection) : Bool :=
  sections.any fun s => !rawSectionGetExists s && is_profile_path s.category_path

/-- Modelled from the spec for claim C5: profile_changed should hold iff
some section under L1 root `profile` was newly inserted, i.e. some
processed outcome is a non-duplicate with a profile category path. -/
def profile_changed_spec (outcomes : List SectionOutcome) : Bool :=
  outcomes.any fun d =>
    !d.exists_ && (match d.cat_path with
      | some p => is_profile_path p
      | none => false)

/-! ### TTL daemon (src/server.py, _ttl_daemon, lines 104-143)

Timestamps are integer day counts.  The source acquires a pool connection
and issues the four statements WITHOUT opening a transaction (contrast
`process_and_insert_memory`, which wraps its batch writes in
`conn.transaction()`), so each statement commits on its own. -/

inductive JobStatus
  | pending
  | processing
  | complete
  | failed
deriving DecidableEq

structure TtlMemory where
  id : Nat
  ttl_days : Option Int
  updated_at : Int
  archived_at : Option Int
deriving DecidableEq

structure StagingRow where
  job_id : Nat
  status : JobStatus
  created_at : Int
deriving DecidableEq

structure ContextRow where
  key : Nat
  expires_at : Int
deriving DecidableEq

structure DbState where
  memories : List TtlMemory
  staging : List StagingRow
  contexts : List ContextRow
deriving DecidableEq

/-- Statement 1 row condition: active, `ttl_days` set, and
`NOW() > updated_at + ttl_days * 1 day`. -/
def ttlElapsed (now : Int) (m : TtlMemory) : Bool :=
  m.archived_at = none &&
    (match m.ttl_days with
      | some d => decide (m.updated_at + d < now)
      | none => false)

/-- Statement 1: soft-archive TTL-elapsed memories. -/
def softArchive (now : Int) (st : DbState) : DbState :=
  { st with memories := st.memories.map fun m =>
      if ttlElapsed now m then { m with archived_at := some now } else m }

def soft_count (now : Int) (st : DbState) : Nat :=
  st.memories.countP (ttlElapsed now)

/-- Statement 2 row condition: `archived_at < NOW() - 30 days`. -/
def hardCond (now : Int) (m : TtlMemory) : Bool :=
  match m.archived_at with
  | some a => decide (a < now - 30)
  | none => false

/-- Statement 2: hard-delete long-archived memories. -/
def hardDelete (now : Int) (st : DbState) : DbState :=
  { st with memories := st.memories.filter fun m => !hardCond now m }

def hard_count (now : Int) (st : DbState) : Nat :=
  st.memories.countP (hardCond now)

/-- Statement 3 row condition: finished staging rows older than the
retention window. -/
def stagingCond (now ret : Int) (r : StagingRow) : Bool :=
  (r.status = JobStatus.complete || r.status = JobStatus.failed) &&
    decide (r.created_at < now - ret)

/-- Statement 3: purge finished staging rows past retention. -/
def stagingPurge (now ret : Int) (st : DbState) : DbState :=
  { st with staging := st.staging.filter fun r => !stagingCond now ret r }

def staging_count (now ret : Int) (st : DbState) : Nat :=
  st.staging.countP (stagingCond now ret)

/-- Statement 4: purge expired context entries. -/
def contextPurge (now : Int) (st : DbState) : DbState :=
  { st with contexts := st.contexts.filter fun c => !decide (c.expires_at < now) }

/-- One `_ttl_daemon` tick: the four statements in order, each committed
individually; the second component records whether
`synthesize_system_primer(profile_changed=True)` was invoked
(`if soft_count or hard_count or staging_count`). -/
def ttlTick (now ret : Int) (st : DbState) : DbState × Bool :=
  let c1 := soft_count now st
  let st1 := softArchive now st
  let c2 := hard_count now st1
  let st2 := hardDelete now st1
  let c3 := staging_count now ret st2
  let st3 := stagingPurge now ret st2
  let st4 := contextPurge now st3
  (st4, decide (c1 ≠ 0 ∨ c2 ≠ 0 ∨ c3 ≠ 0))

/-- The database state visible after the tick fails between statement `k`
and statement `k+1`: exactly the first `k` statements are committed, since
no transaction surrounds them. -/
def ttlCommittedAfter (now ret : Int) (k : Nat) (st : DbState) : DbState :=
  (List.take k
    [softArchive now, hardDelete now, stagingPurge now ret, contextPurge now]).foldl
    (fun s f => f s) st

/-! ### Supersession history (src/tools/context.py, trace_history, 121-155) -/

/-- One expansion of the recursive CTE term: rows `m` joining some frontier
row `h` via `m.supersedes_id = h.id`. -/
def nextLevel (store : List MemoryRow) (frontier : List MemoryRow) :
    List MemoryRow :=
  store.filter fun m => frontier.any fun h => decide (m.supersedes_id = some h.id)

/-- All rows of the recursive CTE, generation by generation.  The join
condition `h.generation < 100` stops expansion after generation 100, i.e.
with fuel 100 starting from the generation-0 frontier. -/
def cteRows (store : List MemoryRow) : Nat → List MemoryRow → List MemoryRow
  | 0, frontier => frontier
  | fuel + 1, frontier => frontier ++ cteRows store fuel (nextLevel store frontier)

/-- Result ordering: `ORDER BY created_at ASC`. -/
def byCreated (a b : MemoryRow) : Prop := a.created_at ≤ b.created_at

instance : DecidableRel byCreated :=
  fun a b => inferInstanceAs (Decidable (a.created_at ≤ b.created_at))

instance : IsTotal MemoryRow byCreated :=
  ⟨fun a b => le_total a.created_at b.created_at⟩

instance : IsTrans MemoryRow byCreated :=
  ⟨fun _ _ _ h1 h2 => le_trans h1 h2⟩

/-- Embeds `trace_history`: the CTE rows from the target row, depth at
most 100, ordered by `created_at` ascending; `none` models the
`Memory not found` error when no rows come back. -/
def trace_history (store : List MemoryRow) (target : Nat) :
    Option (List MemoryRow) :=
  let rows :=
    (cteRows store 100 (store.filter fun m => decide (m.id = target))).insertionSort byCreated
  if rows = [] then none else some rows

/-- The rows whose `supersedes_id` points at `x`: `x`'s direct
predecessors in the supersession graph. -/
def predsOf (store : List MemoryRow) (x : MemoryRow) : List MemoryRow :=
  store.filter fun m => decide (m.supersedes_id = some x.id)

/-- `isBackChain store c`: `c` is a maximal linear backward supersession
chain in `store` — each element's predecessor set is exactly the singleton
next element, and the last element has no predecessor. -/
def isBackChain (store : List MemoryRow) : List MemoryRow → Bool
  | [] => true
  | [x] => decide (predsOf store x = [])
  | x :: y :: rest => decide (predsOf store x = [y]) && isBackChain store (y :: rest)

/-! ### Concrete data used by witnesses and counterexamples -/

/-- A memory row about to be superseded (id 5). -/
def witnessRow : MemoryRow := ⟨5, codes "old", none, 0, 0⟩

/-- An edge table with one outgoing edge, one incoming edge and a
self-loop on node 5. -/
def witnessEdges : Finset Edge :=
  {⟨5, 9, RelType.relates_to⟩, ⟨8, 5, RelType.depends_on⟩,
    ⟨5, 5, RelType.sequence_next⟩}

/-- A fresh insertion outcome with id 1. -/
def freshItem : SectionOutcome :=
  ⟨1, false, none, some (codes "a"), some [], some (codes "projects.p"), none, none⟩

/-- A duplicate outcome whose effective id is the existing memory 2. -/
def dupItem : SectionOutcome :=
  ⟨7, true, some 2, none, none, none, none, none⟩

/-- A raw section under L1 root `profile` whose content already exists in
the database (so its evaluation is a duplicate). -/
def profileDupSection : RawSection :=
  ⟨codes "profile.identity", codes "I live in Berlin", codes "low"⟩

/-- The duplicate outcome that `process_section` emits for
`profileDupSection` when the deterministic id already exists. -/
def profileDupOutcome : SectionOutcome :=
  { id := generate_deterministic_id List.sum (codes "I live in Berlin"),
    exists_ := true,
    duplicate_of := some (generate_deterministic_id List.sum (codes "I live in Berlin")),
    chunk := none, vec := none, cat_path := none,
    supersedes := none, resolution := none }

/-- A database state with one TTL-elapsed memory and one expired context
entry (times in days; `now` will be 10). -/
def ttlWitnessState : DbState :=
  ⟨[⟨1, some 1, 0, none⟩], [], [⟨1, 0⟩]⟩

/-- The newest record of a two-element supersession chain. -/
def historyNewest : MemoryRow := ⟨1, codes "v2", none, 5, 5⟩

/-- The superseded predecessor, pointing at `historyNewest`. -/
def historyOld : MemoryRow := ⟨2, codes "v1", some 1, 3, 5⟩

/-- A store holding exactly that two-element chain. -/
def historyStore : List MemoryRow := [historyNewest, historyOld]

theorem isSpaceN_toLowerN (c : Nat) : isSpaceN (toLowerN c) = isSpaceN c := by
  unfold toLowerN
  split_ifs with h
  · have h1 : isSpaceN (c + 32) = false := by simp [isSpaceN]; omega
    have h2 : isSpaceN c = false := by simp [isSpaceN]; omega
    rw [h1, h2]
  · rfl

theorem toLowerN_toLowerN (c : Nat) : toLowerN (toLowerN c) = toLowerN c := by
  unfold toLowerN
  split_ifs <;> omega

theorem pyLower_pyLower (l : List Nat) : pyLower (pyLower l) = pyLower l := by
  simp [pyLower, Function.comp_def, toLowerN_toLowerN]

theorem wordsAux_cons_nonspace (cur : List Nat) (c : Nat) (cs : List Nat)
    (hc : isSpaceN c = false) :
    wordsAux cur (c :: cs) = wordsAux (c :: cur) cs := by
  simp [wordsAux, hc]

theorem wordsAux_append_word (w : List Nat) (hw : ∀ c ∈ w, isSpaceN c = false) :
    ∀ cur rest, wordsAux cur (w ++ rest) = wordsAux (w.reverse ++ cur) rest := by
  induction w with
  | nil => intro cur rest; simp
  | cons c cs ih =>
    intro cur rest
    have hc : isSpaceN c = false := hw c (by simp)
    have ih' := ih (fun d hd => hw d (by simp [hd]))
    rw [List.cons_append, wordsAux_cons_nonspace cur c (cs ++ rest) hc,
      ih' (c :: cur) rest]
    simp

theorem wordsAux_nil_emit (cur : List Nat) (h : cur ≠ []) :
    wordsAux cur [] = [cur.reverse] := by
  simp [wordsAux, h]

theorem wordsAux_space (cur : List Nat) (c : Nat) (cs : List Nat)
    (hc : isSpaceN c = true) (h : cur ≠ []) :
    wordsAux cur (c :: cs) = cur.reverse :: wordsAux [] cs := by
  simp [wordsAux, hc, h]

theorem pySplit_joinWords (ws : List (List Nat)) (h : ∀ w ∈ ws, GoodWord w) :
    pySplit (joinWords ws) = ws := by
  induction ws with
  | nil => rfl
  | cons w tail ih =>
    have hw := h w (by simp)
    cases tail with
    | nil =>
      have h0 := wordsAux_append_word w hw.2 [] []
      simp only [List.append_nil] at h0
      show wordsAux [] w = [w]
      rw [h0, wordsAux_nil_emit _ (by simpa using hw.1), List.reverse_reverse]
    | cons w2 ws2 =>
      show wordsAux [] (w ++ 32 :: joinWords (w2 :: ws2)) = w :: w2 :: ws2
      rw [wordsAux_append_word w hw.2 [] _]
      rw [List.append_nil, wordsAux_space _ 32 _ (by decide) (by simpa using hw.1)]
      rw [List.reverse_reverse]
      rw [show wordsAux [] (joinWords (w2 :: ws2)) = pySplit (joinWords (w2 :: ws2)) from rfl]
      rw [ih (fun x hx => h x (by simp [hx]))]

theorem goodWord_of_mem_wordsAux :
    ∀ (l cur : List Nat), (∀ c ∈ cur, isSpaceN c = false) →
      ∀ w ∈ wordsAux cur l, GoodWord w := by
  intro l
  induction l with
  | nil =>
    intro cur hcur w hw
    by_cases h : cur = []
    · simp [wordsAux, h] at hw
    · rw [wordsAux_nil_emit cur h] at hw
      simp only [List.mem_singleton] at hw
      subst hw
      exact ⟨by simpa using h, fun c hc => hcur c (by simpa using hc)⟩
  | cons c cs ih =>
    intro cur hcur w hw
    by_cases hc : isSpaceN c
    · by_cases hcur0 : cur = []
      · simp only [wordsAux, hc, if_true, hcur0] at hw
        exact ih [] (by simp) w (by simpa using hw)
      · rw [wordsAux_space cur c cs hc hcur0] at hw
        rcases List.mem_cons.mp hw with hw | hw
        · subst hw
          exact ⟨by simpa using hcur0, fun d hd => hcur d (by simpa using hd)⟩
        · exact ih [] (by simp) w hw
    · simp only [wordsAux, hc, Bool.false_eq_true, if_false] at hw
      refine ih (c :: cur) ?_ w hw
      intro d hd
      rcases List.mem_cons.mp hd with rfl | hd
      · simpa using hc
      · exact hcur d hd

theorem goodWord_of_mem_pySplit (l : List Nat) :
    ∀ w ∈ pySplit l, GoodWord w :=
  goodWord_of_mem_wordsAux l [] (by simp)

theorem wordsAux_map_toLower :
    ∀ (l cur : List Nat),
      wordsAux (cur.map toLowerN) (l.map toLowerN)
        = (wordsAux cur l).map (List.map toLowerN) := by
  intro l
  induction l with
  | nil =>
    intro cur
    by_cases h : cur = []
    · simp [wordsAux, h]
    · have h' : cur.map toLowerN ≠ [] := by simpa using h
      simp [wordsAux, h, h']
  | cons c cs ih =>
    intro cur
    by_cases hc : isSpaceN c
    · have hc' : isSpaceN (toLowerN c) = true := by rw [isSpaceN_toLowerN]; exact hc
      by_cases hcur0 : cur = []
      · simp only [List.map_cons, wordsAux, hc, hc', if_true, hcur0, List.map_nil]
        simpa using ih []
      · have h' : cur.map toLowerN ≠ [] := by simpa using hcur0
        simp only [List.map_cons, wordsAux, hc, hc', if_true, hcur0, h', if_false]
        rw [← List.map_reverse]
        have := ih []
        simp only [List.map_nil] at this
        rw [this]
    · have hc' : isSpaceN (toLowerN c) = false := by rw [isSpaceN_toLowerN]; simpa using hc
      simp only [List.map_cons, wordsAux, hc, hc', Bool.false_eq_true, if_false]
      have := ih (c :: cur)
      simpa using this

theorem pySplit_pyLower (l : List Nat) :
    pySplit (pyLower l) = (pySplit l).map pyLower := by
  have := wordsAux_map_toLower l []
  simpa [pySplit, pyLower] using this

theorem joinWords_map_toLower :
    ∀ ws : List (List Nat), joinWords (ws.map pyLower) = pyLower (joinWords ws)
  | [] => by simp [joinWords, pyLower]
  | [w] => by simp [joinWords, pyLower]
  | w :: w2 :: ws => by
    have ih := joinWords_map_toLower (w2 :: ws)
    simp only [List.map_cons, joinWords] at ih ⊢
    rw [ih]
    simp [pyLower, toLowerN]

theorem joinWords_snoc :
    ∀ xs : List (List Nat), ∀ y, xs ≠ [] →
      joinWords (xs ++ [y]) = joinWords xs ++ 32 :: y
  | [], _, h => absurd rfl h
  | [x], y, _ => by simp [joinWords]
  | x :: x2 :: xs, y, _ => by
    have ih := joinWords_snoc (x2 :: xs) y (by simp)
    show x ++ 32 :: joinWords ((x2 :: xs) ++ [y])
        = (x ++ 32 :: joinWords (x2 :: xs)) ++ 32 :: y
    rw [ih, List.append_assoc]
    rfl

theorem joinWords_reverse :
    ∀ ws : List (List Nat),
      (joinWords ws).reverse = joinWords ((ws.map List.reverse).reverse)
  | [] => by simp [joinWords]
  | [w] => by simp [joinWords]
  | w :: w2 :: ws => by
    have ih := joinWords_reverse (w2 :: ws)
    have hne : ((w2 :: ws).map List.reverse).reverse ≠ [] := by simp
    calc (joinWords (w :: w2 :: ws)).reverse
        = (w ++ 32 :: joinWords (w2 :: ws)).reverse := rfl
      _ = (joinWords (w2 :: ws)).reverse ++ 32 :: w.reverse := by
          rw [List.reverse_append, List.reverse_cons, List.append_assoc]
          rfl
      _ = joinWords (((w2 :: ws).map List.reverse).reverse) ++ 32 :: w.reverse := by rw [ih]
      _ = joinWords (((w2 :: ws).map List.reverse).reverse ++ [w.reverse]) := by
          rw [joinWords_snoc _ _ hne]
      _ = joinWords (((w :: w2 :: ws).map List.reverse).reverse) := by
          simp

theorem goodWord_reverse {w : List Nat} (h : GoodWord w) : GoodWord w.reverse := by
  refine ⟨by simpa using h.1, fun c hc => h.2 c (by simpa using hc)⟩

theorem joinWords_head (ws : List (List Nat)) (h : ∀ w ∈ ws, GoodWord w) (hne : ws ≠ []) :
    ∃ c t, joinWords ws = c :: t ∧ isSpaceN c = false := by
  match ws with
  | [] => exact absurd rfl hne
  | [w] =>
    have hw := h w (by simp)
    obtain ⟨c, t, rfl⟩ := List.exists_cons_of_ne_nil hw.1
    exact ⟨c, t, rfl, hw.2 c (by simp)⟩
  | w :: w2 :: ws =>
    have hw := h w (by simp)
    obtain ⟨c, t, rfl⟩ := List.exists_cons_of_ne_nil hw.1
    exact ⟨c, t ++ 32 :: joinWords (w2 :: ws), rfl, hw.2 c (by simp)⟩

theorem pyStrip_joinWords (ws : List (List Nat)) (h : ∀ w ∈ ws, GoodWord w) :
    pyStrip (joinWords ws) = joinWords ws := by
  cases hws : ws with
  | nil => rfl
  | cons w tail =>
    subst hws
    obtain ⟨c, t, hj, hc⟩ := joinWords_head _ h (by simp)
    have h1 : (joinWords (w :: tail)).dropWhile isSpaceN = joinWords (w :: tail) := by
      rw [hj, List.dropWhile_cons_of_neg (by simp [hc])]
    have hgoodrev : ∀ x ∈ ((w :: tail).map List.reverse).reverse, GoodWord x := by
      intro x hx
      simp only [List.mem_reverse, List.mem_map] at hx
      obtain ⟨y, hy, rfl⟩ := hx
      exact goodWord_reverse (h y hy)
    obtain ⟨c2, t2, hj2, hc2⟩ :=
      joinWords_head (((w :: tail).map List.reverse).reverse) hgoodrev (by simp)
    have h2 : (joinWords (w :: tail)).reverse.dropWhile isSpaceN
        = (joinWords (w :: tail)).reverse := by
      rw [joinWords_reverse, hj2, List.dropWhile_cons_of_neg (by simp [hc2])]
    rw [pyStrip, h1, h2, List.reverse_reverse]

theorem pyNormalize_eq_join (t : List Nat) :
    pyNormalize t = joinWords ((pySplit (pyStrip t)).map pyLower) := by
  rw [pyNormalize, joinWords_map_toLower]

theorem pyNormalize_idem (t : List Nat) :
    pyNormalize (pyNormalize t) = pyNormalize t := by
  have hgood : ∀ w ∈ (pySplit (pyStrip t)).map pyLower, GoodWord w := by
    intro w hw
    simp only [List.mem_map] at hw
    obtain ⟨y, hy, rfl⟩ := hw
    have hg := goodWord_of_mem_pySplit _ y hy
    refine ⟨by simpa [pyLower] using hg.1, ?_⟩
    intro c hc
    simp only [pyLower, List.mem_map] at hc
    obtain ⟨d, hd, rfl⟩ := hc
    rw [isSpaceN_toLowerN]
    exact hg.2 d hd
  conv_lhs => rw [pyNormalize_eq_join t]
  simp only [pyNormalize]
  rw [pyStrip_joinWords _ hgood, pySplit_joinWords _ hgood]
  rw [← joinWords_map_toLower, List.map_map]
  have hcomp : pyLower ∘ pyLower = pyLower := funext pyLower_pyLower
  rw [hcomp, ← pyNormalize_eq_join]
  rfl

/-! ## Claim theorems -/

/-- Claim C8: `generate_deterministic_id` is invariant under the
normalisation it applies — stripping outer whitespace, collapsing inner
whitespace runs to single spaces, and lowercasing — so identical
normalised payloads always yield the same id. -/
theorem deterministic_id_normalization_invariant (uuid5 : List Nat → Nat)
    (t : List Nat) :
    generate_deterministic_id uuid5 t
      = generate_deterministic_id uuid5 (normalize_spec t) := by
  show uuid5 (pyNormalize t) = uuid5 (pyNormalize (pyNormalize t))
  rw [pyNormalize_idem]

theorem process_section_hit (uuid5 : List Nat → Nat) (embed : List Nat → List ℚ)
    (arbitrate : List Nat → List Nat → ArbResult) (dup ct : ℚ)
    (existsInDb : Nat → Bool) (neighbour : Option Neighbour) (sec : RawSection)
    (hex : existsInDb (generate_deterministic_id uuid5 sec.content) = true) :
    process_section uuid5 embed arbitrate dup ct existsInDb neighbour sec
      = (some { id := generate_deterministic_id uuid5 sec.content,
                exists_ := true,
                duplicate_of := some (generate_deterministic_id uuid5 sec.content),
                chunk := none, vec := none, cat_path := none,
                supersedes := none, resolution := none }, []) := by
  simp [process_section, hex]

theorem process_section_dup (uuid5 : List Nat → Nat) (embed : List Nat → List ℚ)
    (arbitrate : List Nat → List Nat → ArbResult) (dup ct : ℚ)
    (existsInDb : Nat → Bool) (n : Neighbour) (sec : RawSection)
    (hex : existsInDb (generate_deterministic_id uuid5 sec.content) = false)
    (hsim : dup < n.similarity) :
    process_section uuid5 embed arbitrate dup ct existsInDb (some n) sec
      = (some { id := generate_deterministic_id uuid5 sec.content,
                exists_ := true, duplicate_of := some n.nid,
                chunk := none, vec := none, cat_path := none,
                supersedes := none, resolution := none }, [sec.content]) := by
  simp [process_section, hex, simOf, hsim]

theorem process_section_conflict (uuid5 : List Nat → Nat) (embed : List Nat → List ℚ)
    (arbitrate : List Nat → List Nat → ArbResult) (dup ct : ℚ)
    (existsInDb : Nat → Bool) (n : Neighbour) (sec : RawSection)
    (hex : existsInDb (generate_deterministic_id uuid5 sec.content) = false)
    (h1 : ct ≤ n.similarity) (h2 : n.similarity ≤ dup) :
    process_section uuid5 embed arbitrate dup ct existsInDb (some n) sec
      = (some { id := generate_deterministic_id uuid5
                  (arbitrate n.ncontent sec.content).updated_text,
                exists_ := false, duplicate_of := none,
                chunk := some (arbitrate n.ncontent sec.content).updated_text,
                vec := some (embed (arbitrate n.ncontent sec.content).updated_text),
                cat_path := some sec.category_path, supersedes := some n.nid,
                resolution := some (arbitrate n.ncontent sec.content).resolution },
          [sec.content, (arbitrate n.ncontent sec.content).updated_text]) := by
  simp [process_section, hex, simOf, not_lt.mpr h2, h1, h2]

theorem process_section_fresh (uuid5 : List Nat → Nat) (embed : List Nat → List ℚ)
    (arbitrate : List Nat → List Nat → ArbResult) (dup ct : ℚ)
    (existsInDb : Nat → Bool) (neighbour : Option Neighbour) (sec : RawSection)
    (hex : existsInDb (generate_deterministic_id uuid5 sec.content) = false)
    (hband : ct ≤ dup) (hlow : simOf neighbour < ct) :
    process_section uuid5 embed arbitrate dup ct existsInDb neighbour sec
      = (some { id := generate_deterministic_id uuid5 sec.content,
                exists_ := false, duplicate_of := none,
                chunk := some sec.content, vec := some (embed sec.content),
                cat_path := some sec.category_path,
                supersedes := none, resolution := none }, [sec.content]) := by
  have hnd : ¬dup < simOf neighbour :=
    not_lt.mpr (le_of_lt (lt_of_lt_of_le hlow hband))
  have hnb : ¬(ct ≤ simOf neighbour ∧ simOf neighbour ≤ dup) :=
    fun h => absurd h.1 (not_le.mpr hlow)
  simp [process_section, hex, hnd, hnb]

/-- Claim C3: per-section evaluation is the four-way decision of
`process_section`: a deterministic-id hit is emitted as a duplicate of
that id without any embedding; otherwise, with `s` the nearest active
neighbour's similarity, `s > DUP_THRESHOLD` emits a duplicate of the
neighbour's id, `CONFLICT_THRESHOLD ≤ s ≤ DUP_THRESHOLD` emits an
insertion superseding the neighbour carrying the arbitrated
`updated_text` re-embedded, and otherwise a fresh insertion with
`supersedes = null` and the content-addressed id. -/
theorem process_section_four_branches (uuid5 : List Nat → Nat)
    (embed : List Nat → List ℚ) (arbitrate : List Nat → List Nat → ArbResult)
    (dup ct : ℚ) (existsInDb : Nat → Bool) (neighbour : Option Neighbour)
    (sec : RawSection) (hband : ct ≤ dup) :
    (existsInDb (generate_deterministic_id uuid5 sec.content) = true →
      process_section uuid5 embed arbitrate dup ct existsInDb neighbour sec
        = (some { id := generate_deterministic_id uuid5 sec.content,
                  exists_ := true,
                  duplicate_of := some (generate_deterministic_id uuid5 sec.content),
                  chunk := none, vec := none, cat_path := none,
                  supersedes := none, resolution := none }, [])) ∧
    (∀ n, neighbour = some n →
      existsInDb (generate_deterministic_id uuid5 sec.content) = false →
      dup < n.similarity →
      process_section uuid5 embed arbitrate dup ct existsInDb neighbour sec
        = (some { id := generate_deterministic_id uuid5 sec.content,
                  exists_ := true, duplicate_of := some n.nid,
                  chunk := none, vec := none, cat_path := none,
                  supersedes := none, resolution := none }, [sec.content])) ∧
    (∀ n, neighbour = some n →
      existsInDb (generate_deterministic_id uuid5 sec.content) = false →
      ct ≤ n.similarity → n.similarity ≤ dup →
      process_section uuid5 embed arbitrate dup ct existsInDb neighbour sec
        = (some { id := generate_deterministic_id uuid5
                    (arbitrate n.ncontent sec.content).updated_text,
                  exists_ := false, duplicate_of := none,
                  chunk := some (arbitrate n.ncontent sec.content).updated_text,
                  vec := some (embed (arbitrate n.ncontent sec.content).updated_text),
                  cat_path := some sec.category_path, supersedes := some n.nid,
                  resolution := some (arbitrate n.ncontent sec.content).resolution },
            [sec.content, (arbitrate n.ncontent sec.content).updated_text])) ∧
    (existsInDb (generate_deterministic_id uuid5 sec.content) = false →
      simOf neighbour < ct →
      process_section uuid5 embed arbitrate dup ct existsInDb neighbour sec
        = (some { id := generate_deterministic_id uuid5 sec.content,
                  exists_ := false, duplicate_of := none,
                  chunk := some sec.content, vec := some (embed sec.content),
                  cat_path := some sec.category_path,
                  supersedes := none, resolution := none }, [sec.content])) := by
  refine ⟨?_, ?_, ?_, ?_⟩
  · intro hex
    exact process_section_hit uuid5 embed arbitrate dup ct existsInDb neighbour sec hex
  · intro n hn hex hsim
    subst hn
    exact process_section_dup uuid5 embed arbitrate dup ct existsInDb n sec hex hsim
  · intro n hn hex h1 h2
    subst hn
    exact process_section_conflict uuid5 embed arbitrate dup ct existsInDb n sec hex h1 h2
  · intro hex hlow
    exact process_section_fresh uuid5 embed arbitrate dup ct existsInDb neighbour sec hex hband hlow

/-- Witness for C3: the conflict branch evaluated at a concrete section
whose neighbour has similarity 0.9, inside the default 0.55–0.95 band. -/
theorem process_section_four_branches_witness :
    CONFLICT_THRESHOLD ≤ DUP_THRESHOLD ∧
    process_section List.sum (fun l => [(l.length : ℚ)])
        (fun old new => { resolution := codes "supersedes", updated_text := old ++ new })
        DUP_THRESHOLD CONFLICT_THRESHOLD (fun _ => false)
        (some { nid := 3, ncontent := codes "a", similarity := 9 / 10 })
        { category_path := codes "profile.x", content := codes "b",
          volatility_class := codes "low" }
      = (some { id := generate_deterministic_id List.sum (codes "a" ++ codes "b"),
                exists_ := false, duplicate_of := none,
                chunk := some (codes "a" ++ codes "b"),
                vec := some [((codes "a" ++ codes "b").length : ℚ)],
                cat_path := some (codes "profile.x"), supersedes := some 3,
                resolution := some (codes "supersedes") },
          [codes "b", codes "a" ++ codes "b"]) :=
  ⟨by norm_num [CONFLICT_THRESHOLD, DUP_THRESHOLD],
    (process_section_four_branches List.sum (fun l => [(l.length : ℚ)])
      (fun old new => { resolution := codes "supersedes", updated_text := old ++ new })
      DUP_THRESHOLD CONFLICT_THRESHOLD (fun _ => false)
      (some { nid := 3, ncontent := codes "a", similarity := 9 / 10 })
      { category_path := codes "profile.x", content := codes "b",
        volatility_class := codes "low" }
      (by norm_num [CONFLICT_THRESHOLD, DUP_THRESHOLD])).2.2.1
      { nid := 3, ncontent := codes "a", similarity := 9 / 10 } rfl rfl
      (by norm_num [CONFLICT_THRESHOLD]) (by norm_num [DUP_THRESHOLD])⟩

/-- Claim C10: when the nearest-neighbour query returns no active memory,
the similarity is taken as 0.0 and — provided the conflict threshold is
positive (and no larger than the duplicate threshold, the standing band
assumption) — evaluation always takes the fresh-insertion branch; the
duplicate and arbitration branches, which subscript the neighbour row, are
unreachable, so the absent row is never dereferenced. -/
theorem process_section_no_neighbour_fresh (uuid5 : List Nat → Nat)
    (embed : List Nat → List ℚ) (arbitrate : List Nat → List Nat → ArbResult)
    (dup ct : ℚ) (existsInDb : Nat → Bool) (sec : RawSection)
    (hct : 0 < ct) (hband : ct ≤ dup)
    (hex : existsInDb (generate_deterministic_id uuid5 sec.content) = false) :
    process_section uuid5 embed arbitrate dup ct existsInDb none sec
      = (some { id := generate_deterministic_id uuid5 sec.content,
                exists_ := false, duplicate_of := none,
                chunk := some sec.content, vec := some (embed sec.content),
                cat_path := some sec.category_path,
                supersedes := none, resolution := none }, [sec.content]) :=
  process_section_fresh uuid5 embed arbitrate dup ct existsInDb none sec hex hband
    (by simpa [simOf] using hct)

/-- Witness for C10: the neighbour-free run at the default thresholds. -/
theorem process_section_no_neighbour_fresh_witness :
    (0 < CONFLICT_THRESHOLD ∧ CONFLICT_THRESHOLD ≤ DUP_THRESHOLD) ∧
    process_section List.sum (fun l => [(l.length : ℚ)])
        (fun old new => { resolution := codes "merges", updated_text := old ++ new })
        DUP_THRESHOLD CONFLICT_THRESHOLD (fun _ => false) none
        { category_path := codes "concepts.z", content := codes "c",
          volatility_class := codes "low" }
      = (some { id := generate_deterministic_id List.sum (codes "c"),
                exists_ := false, duplicate_of := none,
                chunk := some (codes "c"), vec := some [((codes "c").length : ℚ)],
                cat_path := some (codes "concepts.z"),
                supersedes := none, resolution := none }, [codes "c"]) :=
  ⟨⟨by norm_num [CONFLICT_THRESHOLD], by norm_num [CONFLICT_THRESHOLD, DUP_THRESHOLD]⟩,
    process_section_no_neighbour_fresh List.sum (fun l => [(l.length : ℚ)])
      (fun old new => { resolution := codes "merges", updated_text := old ++ new })
      DUP_THRESHOLD CONFLICT_THRESHOLD (fun _ => false)
      { category_path := codes "concepts.z", content := codes "c",
        volatility_class := codes "low" }
      (by norm_num [CONFLICT_THRESHOLD])
      (by norm_num [CONFLICT_THRESHOLD, DUP_THRESHOLD]) rfl⟩

/-- Counterexample for claim C1: the claim says the replacement record of a
conflict-band supersession gets a freshly minted random id, independent of
the content hash of the arbitrated text.  At this concrete conflict-band
run the emitted record's id IS `generate_deterministic_id` of the record's
own arbitrated content — derived deterministically from it, for every
choice of hash the equality below holds by computation. -/
theorem supersede_id_random_counterexample :
    (process_section List.sum (fun _ => [])
        (fun _ new => { resolution := codes "supersedes", updated_text := new })
        (19 / 20) (11 / 20) (fun _ => false)
        (some { nid := 7, ncontent := codes "old fact", similarity := 3 / 4 })
        { category_path := codes "profile.x", content := codes "new fact",
          volatility_class := codes "low" }).fst
      = some { id := generate_deterministic_id List.sum (codes "new fact"),
               exists_ := false, duplicate_of := none,
               chunk := some (codes "new fact"), vec := some [],
               cat_path := some (codes "profile.x"), supersedes := some 7,
               resolution := some (codes "supersedes") } := by
  have h := process_section_conflict List.sum (fun _ => [])
    (fun _ new => { resolution := codes "supersedes", updated_text := new })
    (19 / 20) (11 / 20) (fun _ => false)
    { nid := 7, ncontent := codes "old fact", similarity := 3 / 4 }
    { category_path := codes "profile.x", content := codes "new fact",
      volatility_class := codes "low" } rfl (by norm_num) (by norm_num)
  rw [congrArg Prod.fst h]

/-- Claim C1 as amended: for every section persisted as a conflict-band
supersession, the id of the newly inserted replacement record is not
random — it is the deterministic content id of the arbitrated
`updated_text` (db.py line 279), hence derived from the record's own
content and distinct from the old content hash only insofar as the texts
differ. -/
theorem supersede_id_content_addressed (uuid5 : List Nat → Nat)
    (embed : List Nat → List ℚ) (arbitrate : List Nat → List Nat → ArbResult)
    (dup ct : ℚ) (existsInDb : Nat → Bool) (n : Neighbour) (sec : RawSection)
    (hex : existsInDb (generate_deterministic_id uuid5 sec.content) = false)
    (h1 : ct ≤ n.similarity) (h2 : n.similarity ≤ dup) :
    ∃ o, (process_section uuid5 embed arbitrate dup ct existsInDb (some n) sec).fst
        = some o
      ∧ o.supersedes = some n.nid
      ∧ o.chunk = some (arbitrate n.ncontent sec.content).updated_text
      ∧ o.id = generate_deterministic_id uuid5
          (arbitrate n.ncontent sec.content).updated_text := by
  refine ⟨{ id := generate_deterministic_id uuid5
              (arbitrate n.ncontent sec.content).updated_text,
            exists_ := false, duplicate_of := none,
            chunk := some (arbitrate n.ncontent sec.content).updated_text,
            vec := some (embed (arbitrate n.ncontent sec.content).updated_text),
            cat_path := some sec.category_path, supersedes := some n.nid,
            resolution := some (arbitrate n.ncontent sec.content).resolution },
    ?_, rfl, rfl, rfl⟩
  have h := process_section_conflict uuid5 embed arbitrate dup ct existsInDb n sec hex h1 h2
  rw [congrArg Prod.fst h]

/-- Witness for the amended C1: concrete conflict-band run. -/
theorem supersede_id_content_addressed_witness :
    ((11 : ℚ) / 20 ≤ 3 / 4 ∧ (3 : ℚ) / 4 ≤ 19 / 20) ∧
    ∃ o, (process_section List.sum (fun _ => [])
        (fun old _ => { resolution := codes "supersedes", updated_text := old })
        (19 / 20) (11 / 20) (fun _ => false)
        (some { nid := 9, ncontent := codes "old", similarity := 3 / 4 })
        { category_path := codes "profile.y", content := codes "new",
          volatility_class := codes "low" }).fst = some o
      ∧ o.supersedes = some 9
      ∧ o.chunk = some ((fun old _ => (⟨codes "supersedes", old⟩ : ArbResult))
          (codes "old") (codes "new")).updated_text
      ∧ o.id = generate_deterministic_id List.sum
          ((fun old _ => (⟨codes "supersedes", old⟩ : ArbResult))
            (codes "old") (codes "new")).updated_text :=
  ⟨⟨by norm_num, by norm_num⟩,
    supersede_id_content_addressed List.sum (fun _ => [])
      (fun old _ => { resolution := codes "supersedes", updated_text := old })
      (19 / 20) (11 / 20) (fun _ => false)
      { nid := 9, ncontent := codes "old", similarity := 3 / 4 }
      { category_path := codes "profile.y", content := codes "new",
        volatility_class := codes "low" } rfl (by norm_num) (by norm_num)⟩

/-- Claim C2: after the supersession step of the batch transaction, the
old record carries `supersedes_id = new.id`; no edge in the edge table
references the old record as source or target; and every edge that
previously referenced the old record now exists with the new record
substituted in its place (up to primary-key uniqueness of the
`(source, target, relation)` triple).  The replacement id is assumed
distinct from the old id, as a supersession by nature inserts a new
record. -/
theorem supersession_step_correct (mems : List MemoryRow) (E : Finset Edge)
    (old_id new_id : Nat) (now : Int) (hne : new_id ≠ old_id) :
    (∀ m ∈ mems, m.id = old_id →
      { m with supersedes_id := some new_id, updated_at := now }
        ∈ setSupersedes mems old_id new_id now) ∧
    (∀ e ∈ rewireEdges E old_id new_id,
      ¬e.source_id = old_id ∧ ¬e.target_id = old_id) ∧
    (∀ e ∈ E, e.source_id = old_id ∨ e.target_id = old_id →
      substEdge old_id new_id e ∈ rewireEdges E old_id new_id) := by
  refine ⟨?_, ?_, ?_⟩
  · intro m hm h
    exact List.mem_map.2 ⟨m, hm, by rw [if_pos h]⟩
  · intro e he
    exact (Finset.mem_filter.mp he).2
  · intro e he hor
    by_cases hs : e.source_id = old_id <;> by_cases ht : e.target_id = old_id
    · -- both endpoints are the old node
      have h1 : ({ e with source_id := new_id } : Edge)
          ∈ rewireOut E old_id new_id :=
        Finset.mem_union_right _
          (Finset.mem_image_of_mem _ (Finset.mem_filter.mpr ⟨he, hs⟩))
      have h2 : ({ e with source_id := new_id, target_id := new_id } : Edge)
          ∈ rewireIn (rewireOut E old_id new_id) old_id new_id :=
        Finset.mem_union_right _
          (Finset.mem_image_of_mem _ (Finset.mem_filter.mpr ⟨h1, ht⟩))
      have hsub : substEdge old_id new_id e
          = { e with source_id := new_id, target_id := new_id } := by
        simp [substEdge, substNode, hs, ht]
      rw [rewireEdges, hsub]
      exact Finset.mem_filter.mpr ⟨h2, hne, hne⟩
    · -- only the source is the old node
      have h1 : ({ e with source_id := new_id } : Edge)
          ∈ rewireOut E old_id new_id :=
        Finset.mem_union_right _
          (Finset.mem_image_of_mem _ (Finset.mem_filter.mpr ⟨he, hs⟩))
      have h2 : ({ e with source_id := new_id } : Edge)
          ∈ rewireIn (rewireOut E old_id new_id) old_id new_id :=
        Finset.mem_union_left _ h1
      have hsub : substEdge old_id new_id e = { e with source_id := new_id } := by
        simp [substEdge, substNode, hs, ht]
      rw [rewireEdges, hsub]
      exact Finset.mem_filter.mpr ⟨h2, hne, ht⟩
    · -- only the target is the old node
      have h1 : (e : Edge) ∈ rewireOut E old_id new_id := Finset.mem_union_left _ he
      have h2 : ({ e with target_id := new_id } : Edge)
          ∈ rewireIn (rewireOut E old_id new_id) old_id new_id :=
        Finset.mem_union_right _
          (Finset.mem_image_of_mem _ (Finset.mem_filter.mpr ⟨h1, ht⟩))
      have hsub : substEdge old_id new_id e = { e with target_id := new_id } := by
        simp [substEdge, substNode, hs, ht]
      rw [rewireEdges, hsub]
      exact Finset.mem_filter.mpr ⟨h2, hs, hne⟩
    · exact absurd hor (by simp [hs, ht])

/-- Witness for C2: a concrete supersession of node 5 by node 6 with an
outgoing edge, an incoming edge and a self-loop; the substituted outgoing
edge is present afterwards and the old record points at the new one. -/
theorem supersession_step_correct_witness :
    ((6 : Nat) ≠ 5) ∧
    ({ id := 5, content := codes "old", supersedes_id := some 6,
       created_at := 0, updated_at := 1 } : MemoryRow)
      ∈ setSupersedes [witnessRow] 5 6 1 ∧
    substEdge 5 6 ⟨5, 9, RelType.relates_to⟩
      ∈ rewireEdges witnessEdges 5 6 :=
  ⟨by decide,
    (supersession_step_correct [witnessRow] witnessEdges 5 6 1 (by decide)).1
      witnessRow (List.mem_singleton.mpr rfl) rfl,
    (supersession_step_correct [witnessRow] witnessEdges 5 6 1 (by decide)).2.2
      ⟨5, 9, RelType.relates_to⟩ (Finset.mem_insert_self _ _) (Or.inl rfl)⟩

/-- Claim C4 (refuted; the code contradicts its own comment): the claim
says every consecutive pair of persisted sections with differing effective
ids gets a `(prev_effective, this_effective, sequence_next)` edge, with a
duplicate's effective id being the matched memory's id so chains stitch
through duplicates.  In the code the sequence-edge insert and the update
of `prev_id` both live inside the `if not item["exists"]` branch, so a
duplicate section neither receives a sequence edge nor becomes the
predecessor: after a fresh section (effective id 1) and a duplicate
(effective id 2) no `seqEdge 1 2` is issued and `prev_id` stays 1. -/
theorem sequence_edge_skips_duplicates :
    effective_id freshItem = 1 ∧ effective_id dupItem = 2 ∧
    (persistLoop ⟨none, none⟩ [freshItem, dupItem]).snd
      = [PersistOp.insertMemory 1, PersistOp.relatesToEdges 1,
         PersistOp.touchLastAccessed 2] ∧
    PersistOp.seqEdge 1 2 ∉ (persistLoop ⟨none, none⟩ [freshItem, dupItem]).snd ∧
    (persistLoop ⟨none, none⟩ [freshItem, dupItem]).fst.prev_id = some 1 := by
  refine ⟨rfl, rfl, rfl, by decide, rfl⟩

/-- Claim C5 (refuted; the filter `if not section.get("exists", False)` is
vacuous because it is applied to the RAW extracted sections, which never
carry an `exists` key): at this concrete run the only profile section is
evaluated as a duplicate of an existing memory, the claim requires the
Primer Synthesizer to be called with `profile_changed=false`, yet the code
computes `profile_changed=true`. -/
theorem profile_changed_ignores_duplicates :
    (process_section List.sum (fun _ => [])
        (fun _ new => { resolution := codes "merges", updated_text := new })
        1 0 (fun _ => true) none profileDupSection).fst
      = some profileDupOutcome ∧
    profile_changed_spec [profileDupOutcome] = false ∧
    profile_changed_code [profileDupSection] = true := by
  refine ⟨?_, rfl, by decide⟩
  have h := process_section_hit List.sum (fun _ => [])
    (fun _ new => { resolution := codes "merges", updated_text := new })
    1 0 (fun _ => true) none profileDupSection rfl
  rw [congrArg Prod.fst h]
  rfl

/-- Counterexample for claim C6: the four maintenance statements are NOT
wrapped in a transaction (the source acquires a bare pool connection), so
a failure between statement 1 and statement 2 leaves the soft-archive
committed while the later purges have not run — some steps' effects are
applied, contradicting "a failure leaves none of the steps' effects
applied". -/
theorem ttl_tick_not_transactional :
    (ttlCommittedAfter 10 7 1 ttlWitnessState).memories
        ≠ ttlWitnessState.memories ∧
    (ttlCommittedAfter 10 7 1 ttlWitnessState).contexts
        = ttlWitnessState.contexts ∧
    (ttlTick 10 7 ttlWitnessState).fst.contexts = [] := by
  refine ⟨by decide, by decide, by decide⟩

/-- Claim C6 as amended: on each tick the daemon runs the four steps in
the stated order as individually committed statements on one connection
(not in a single transaction) — a failure midway leaves the completed
statements' effects applied — and it rebuilds the primer with
`profile_changed=true` iff any of the first three steps affected rows;
expired context entries alone do not trigger a rebuild. -/
theorem ttl_tick_steps (now ret : Int) (st : DbState) :
    (ttlTick now ret st).fst
        = contextPurge now (stagingPurge now ret (hardDelete now (softArchive now st))) ∧
    ((ttlTick now ret st).snd = true ↔
      (soft_count now st ≠ 0 ∨ hard_count now (softArchive now st) ≠ 0
        ∨ staging_count now ret (hardDelete now (softArchive now st)) ≠ 0)) ∧
    (∀ c : ContextRow, c ∈ (ttlTick now ret st).fst.contexts ↔
      c ∈ st.contexts ∧ ¬c.expires_at < now) ∧
    (∀ sr : StagingRow, sr ∈ (ttlTick now ret st).fst.staging ↔
      sr ∈ st.staging ∧
        ¬((sr.status = JobStatus.complete ∨ sr.status = JobStatus.failed)
          ∧ sr.created_at < now - ret)) ∧
    ttlCommittedAfter now ret 0 st = st ∧
    ttlCommittedAfter now ret 1 st = softArchive now st ∧
    ttlCommittedAfter now ret 2 st = hardDelete now (softArchive now st) ∧
    ttlCommittedAfter now ret 3 st
        = stagingPurge now ret (hardDelete now (softArchive now st)) ∧
    ttlCommittedAfter now ret 4 st = (ttlTick now ret st).fst := by
  refine ⟨rfl, by simp [ttlTick], ?_, ?_, rfl, rfl, rfl, rfl, rfl⟩
  · intro c
    show c ∈ (contextPurge now (stagingPurge now ret (hardDelete now (softArchive now st)))).contexts ↔ _
    simp [contextPurge, stagingPurge, hardDelete, softArchive, List.mem_filter]
  · intro sr
    show sr ∈ (contextPurge now (stagingPurge now ret (hardDelete now (softArchive now st)))).staging ↔ _
    simp only [contextPurge, stagingPurge, hardDelete, softArchive, stagingCond,
      List.mem_filter, Bool.not_eq_true', Bool.and_eq_false_iff, decide_eq_false_iff_not,
      Bool.or_eq_false_iff, not_and, not_or, not_lt]
    tauto

/-- Counterexample for claim C7: when the model returns a zero-length (or
malformed) section list, the fallback single section is the full input
text and is NOT length-filtered; with the short input "hi" the pipeline
receives a section whose trimmed content is far below
MIN_SECTION_LENGTH. -/
theorem fallback_section_bypasses_length_filter :
    extract_semantic_sections (fun p => p) MIN_SECTION_LENGTH (codes "hi") (some [])
      = [fallbackSection (codes "hi")] ∧
    extract_semantic_sections (fun p => p) MIN_SECTION_LENGTH (codes "hi") none
      = [fallbackSection (codes "hi")] ∧
    (pyStrip (fallbackSection (codes "hi")).content).length < MIN_SECTION_LENGTH := by
  refine ⟨rfl, rfl, by decide⟩

/-- Claim C7 as amended: sections of a successfully parsed, non-empty
segmentation response are dropped unless their trimmed content length is
at least MIN_SECTION_LENGTH, so every section surviving that path meets
the bound; the fallback paths (model failure or empty list) instead return
the full input as a single section without applying the length filter. -/
theorem extract_sections_filtered (sanitizePath : List Nat → List Nat)
    (minLen : Nat) (text : List Nat) (l : List RawSection) (hne : l ≠ []) :
    (∀ s ∈ extract_semantic_sections sanitizePath minLen text (some l),
      minLen ≤ (pyStrip s.content).length) ∧
    extract_semantic_sections sanitizePath minLen text none
      = [fallbackSection text] ∧
    extract_semantic_sections sanitizePath minLen text (some [])
      = [fallbackSection text] := by
  refine ⟨?_, rfl, rfl⟩
  intro s hs
  have hrw : extract_semantic_sections sanitizePath minLen text (some l)
      = (l.map fun s =>
          { s with
            category_path := sanitizePath s.category_path
            volatility_class := normVolatility s.volatility_class }).filter
          fun s => decide (minLen ≤ (pyStrip s.content).length) := by
    simp [extract_semantic_sections, hne]
  rw [hrw] at hs
  simpa using (List.mem_filter.mp hs).2

/-- Witness for the amended C7: with threshold 3 the surviving section of
a one-element response has trimmed length at least 3. -/
theorem extract_sections_filtered_witness :
    ([(⟨codes "reference.unknown", codes "hello", codes "low"⟩ : RawSection)]
        ≠ ([] : List RawSection)) ∧
    3 ≤ (pyStrip (codes "hello")).length :=
  ⟨by decide,
    (extract_sections_filtered (fun p => p) 3 []
        [⟨codes "reference.unknown", codes "hello", codes "low"⟩] (by decide)).1
      ⟨codes "reference.unknown", codes "hello", codes "low"⟩ (by decide)⟩

theorem cteRows_nil_frontier (store : List MemoryRow) :
    ∀ fuel, cteRows store fuel [] = [] := by
  intro fuel
  induction fuel with
  | zero => rfl
  | succ n ih =>
    show [] ++ cteRows store n (nextLevel store []) = []
    have h : nextLevel store [] = [] := by simp [nextLevel]
    rw [h, ih]
    rfl

theorem nextLevel_singleton (store : List MemoryRow) (x : MemoryRow) :
    nextLevel store [x] = predsOf store x := by
  simp [nextLevel, predsOf]

theorem cteRows_chain (store : List MemoryRow) :
    ∀ fuel (x : MemoryRow) (rest : List MemoryRow),
      isBackChain store (x :: rest) = true →
      (x :: rest).length ≤ fuel + 1 →
      cteRows store fuel [x] = x :: rest := by
  intro fuel
  induction fuel with
  | zero =>
    intro x rest hchain hlen
    cases rest with
    | nil => rfl
    | cons y r =>
      exfalso
      simp [List.length_cons] at hlen
  | succ n ih =>
    intro x rest hchain hlen
    show [x] ++ cteRows store n (nextLevel store [x]) = x :: rest
    rw [nextLevel_singleton]
    cases rest with
    | nil =>
      have hp : predsOf store x = [] := by simpa [isBackChain] using hchain
      rw [hp, cteRows_nil_frontier]
      rfl
    | cons y r =>
      have h1 : predsOf store x = [y] ∧ isBackChain store (y :: r) = true := by
        simpa [isBackChain] using hchain
      have hlen' : (y :: r).length ≤ n + 1 := by
        simp only [List.length_cons] at hlen ⊢
        omega
      rw [h1.1, ih y r h1.2 hlen']
      rfl

theorem filter_id_single (store : List MemoryRow) (target : Nat) (r : MemoryRow)
    (hnd : (store.map MemoryRow.id).Nodup) (hr : r ∈ store) (hid : r.id = target) :
    store.filter (fun m => decide (m.id = target)) = [r] := by
  induction store with
  | nil => cases hr
  | cons a s ih =>
    have hsplit : (∀ x ∈ s, ¬x.id = a.id) ∧ (s.map MemoryRow.id).Nodup := by
      have h0 := hnd
      simp [List.nodup_cons] at h0
      exact h0
    rcases List.mem_cons.mp hr with rfl | hmem
    · rw [List.filter_cons_of_pos (by simpa using hid)]
      have hnil : s.filter (fun m => decide (m.id = target)) = [] := by
        refine List.filter_eq_nil_iff.mpr ?_
        intro m hm hd
        have hmid : m.id = target := by simpa using hd
        exact hsplit.1 m hm (hmid.trans hid.symm)
      rw [hnil]
    · have ha : ¬(a.id = target) := by
        intro h
        exact hsplit.1 r hmem (hid.trans h.symm)
      rw [List.filter_cons_of_neg (by simpa using ha)]
      exact ih hsplit.2 hmem

/-- Claim C9: for every memory id whose record exists at the head of a
maximal backward supersession chain, `trace_history` returns exactly the
chain's rows ordered by `created_at` ascending (hence pairwise
non-decreasing timestamps), produced by following `supersedes_id`
back-pointers to depth at most 100; the target itself is included and the
number of entries equals the length of the chain. -/
theorem trace_history_chain_correct (store : List MemoryRow) (target : Nat)
    (r : MemoryRow) (rest : List MemoryRow)
    (hnd : (store.map MemoryRow.id).Nodup) (hr : r ∈ store) (hid : r.id = target)
    (hchain : isBackChain store (r :: rest) = true)
    (hlen : (r :: rest).length ≤ 101) :
    trace_history store target = some ((r :: rest).insertionSort byCreated) ∧
    ((r :: rest).insertionSort byCreated).Perm (r :: rest) ∧
    List.Sorted byCreated ((r :: rest).insertionSort byCreated) ∧
    ((r :: rest).insertionSort byCreated).length = rest.length + 1 ∧
    r ∈ (r :: rest).insertionSort byCreated := by
  have hbase : store.filter (fun m => decide (m.id = target)) = [r] :=
    filter_id_single store target r hnd hr hid
  have hct : cteRows store 100 [r] = r :: rest :=
    cteRows_chain store 100 r rest hchain (by simpa using hlen)
  have hne : ((r :: rest).insertionSort byCreated) ≠ [] := by
    intro h
    have hl := List.length_insertionSort byCreated (r :: rest)
    rw [h] at hl
    simp at hl
  refine ⟨?_, List.perm_insertionSort byCreated _,
    List.sorted_insertionSort byCreated _,
    by rw [List.length_insertionSort]; simp, by simp⟩
  simp only [trace_history]
  rw [hbase, hct, if_neg hne]

/-- Witness for C9: the two-element chain store, traced from the newest
record's id. -/
theorem trace_history_chain_correct_witness :
    (historyStore.map MemoryRow.id).Nodup ∧
    trace_history historyStore 1
      = some (([historyNewest, historyOld]).insertionSort byCreated) :=
  ⟨by decide,
    (trace_history_chain_correct historyStore 1 historyNewest [historyOld]
      (by decide) (by decide) rfl (by decide) (by decide)).1⟩
